import Mathlib

/-!
Verification of the configuration module of the mail-forwarder
(`scripts/config.py`): a shallow embedding of its data model
(`ForwardingRule`, the sub-configs, `Configuration`) and of its
operations (`Configuration.validate`, `parse_forwarding_rules`,
`from_environment`), followed by theorems about them.

Python strings are embedded as `List Char`; Python `dict`/`set` as
ordered association lists / `Finset`; a raised `ValueError` as an
`Option`/`Except` error value.  `validate` mutates the configuration in
place and may raise, so it is embedded as a function returning the final
state together with an optional error.
-/

/-- The whitespace predicate of Python for `str` — shared by the regex
class `\s` (Unicode mode, the default for `str` patterns) and by
`str.strip()`/`str.isspace()`: CPython implements both per character
with `Py_UNICODE_ISSPACE`, whose table is U+0009..U+000D,
U+001C..U+001F, U+0020, U+0085, U+00A0, U+1680, U+2000..U+200A, U+2028,
U+2029, U+202F, U+205F and U+3000. -/
def pyIsSpace (c : Char) : Bool :=
  decide ((0x09 ≤ c.toNat ∧ c.toNat ≤ 0x0D) ∨ (0x1C ≤ c.toNat ∧ c.toNat ≤ 0x1F) ∨
    c.toNat = 0x20 ∨ c.toNat = 0x85 ∨ c.toNat = 0xA0 ∨ c.toNat = 0x1680 ∨
    (0x2000 ≤ c.toNat ∧ c.toNat ≤ 0x200A) ∨ c.toNat = 0x2028 ∨ c.toNat = 0x2029 ∨
    c.toNat = 0x202F ∨ c.toNat = 0x205F ∨ c.toNat = 0x3000)

/-- Python `str.strip()`: drop leading and trailing whitespace. -/
def strip (l : List Char) : List Char :=
  ((l.dropWhile pyIsSpace).reverse.dropWhile pyIsSpace).reverse

/-- Split at the first occurrence of `sep`: Python `s.split(sep, 1)`
returning `some (before, after)` when `sep` occurs, `none` otherwise. -/
def splitAtFirst (sep : Char) : List Char → Option (List Char × List Char)
  | [] => none
  | c :: rest =>
    if c = sep then some ([], rest)
    else (splitAtFirst sep rest).map (fun p => (c :: p.1, p.2))

/-- A character admitted by the regex class `[^@\s]`. -/
def okChar (c : Char) : Bool := !(c == '@') && !(pyIsSpace c)

/-- `true` when some `'.'` occurs before the last position of the list. -/
def hasDotBeforeEnd : List Char → Bool
  | [] => false
  | [_] => false
  | c :: rest => (c == '.') || hasDotBeforeEnd rest

/-- `true` when some `'.'` occurs at neither the first nor the last
position of the list. -/
def hasMidDot : List Char → Bool
  | [] => false
  | _ :: t => hasDotBeforeEnd t

/-- Matcher for the regex fragment `[^@\s]+\.[^@\s]+` used as the domain
part of the email regexes in `ForwardingRule.__post_init__`. -/
def matchDomain (d : List Char) : Bool := d.all okChar && hasMidDot d

/-- Matcher for the anchor-free body `[^@\s]+@[^@\s]+\.[^@\s]+` of the
email regex of `ForwardingRule.__post_init__`, against an entire string.
Both character classes exclude `'@'`, so a matching string decomposes
uniquely at its first `'@'`. -/
def emailCore (s : List Char) : Bool :=
  match splitAtFirst '@' s with
  | some (u, d) => !u.isEmpty && u.all okChar && matchDomain d
  | none => false

/-- Drop one final `'\n'`: `some` of the body when the string ends in a
newline, `none` otherwise. -/
def dropFinalNewline : List Char → Option (List Char)
  | [] => none
  | [c] => if c = '\n' then some [] else none
  | c :: rest => (dropFinalNewline rest).map (c :: ·)

/-- Python `re.match` of `^body$` (no MULTILINE): `$` matches at the end
of the string or just before a newline at the end of the string, so the
body must match the whole string or the string minus one final
newline. -/
def withDollar (core : List Char → Bool) (s : List Char) : Bool :=
  core s ||
    (match dropFinalNewline s with
      | some b => core b
      | none => false)

/-- Matcher for the full email regex `^[^@\s]+@[^@\s]+\.[^@\s]+$` of
`ForwardingRule.__post_init__`, with the `$`-before-final-newline
semantics of Python. -/
def matchEmail (s : List Char) : Bool := withDollar emailCore s

/-- Matcher for the group `(\*|\*\.[^@\s]+)` before the `@` of the
wildcard regex: a lone `*`, or `*.` followed by one or more `[^@\s]`
characters. -/
def wildPre : List Char → Bool
  | c :: c2 :: rest => c == '*' && c2 == '.' && !rest.isEmpty && rest.all okChar
  | [c] => c == '*'
  | [] => false

/-- Matcher for the anchor-free body of the wildcard-source regex of
`ForwardingRule.__post_init__`, against an entire string. -/
def wildCore (s : List Char) : Bool :=
  match splitAtFirst '@' s with
  | some (pre, d) => wildPre pre && matchDomain d
  | none => false

/-- Matcher for the full wildcard-source regex
`^(\*|\*\.[^@\s]+)@[^@\s]+\.[^@\s]+$` of `ForwardingRule.__post_init__`,
with the `$`-before-final-newline semantics of Python. -/
def matchWildcardSource (s : List Char) : Bool := withDollar wildCore s

/-- `ForwardingRule` dataclass: a mail forwarding rule. -/
structure ForwardingRule where
  source : List Char
  destination : List Char
  is_wildcard : Bool := false
deriving DecidableEq

/-- Dataclass construction of `ForwardingRule`, whose `__post_init__`
raises `ValueError` (here: `none`) unless the source matches the
wildcard or plain email regex (according to `is_wildcard`) and the
destination matches the email regex. -/
def mkForwardingRule (source destination : List Char) (is_wildcard : Bool) :
    Option ForwardingRule :=
  if (if is_wildcard then matchWildcardSource source else matchEmail source)
      && matchEmail destination then
    some ⟨source, destination, is_wildcard⟩
  else
    none

/-- The `domain` property: `self.source.split('@')[1]` when `'@' in
self.source`, else `None` — the segment of `source` between its first
and second `'@'` (or to the end when there is no second `'@'`). -/
def ForwardingRule.domain (r : ForwardingRule) : Option (List Char) :=
  match splitAtFirst '@' r.source with
  | none => none
  | some (_, rest) =>
    match splitAtFirst '@' rest with
    | none => some rest
    | some (d, _) => some d

/-- `SRSConfig` dataclass (field defaults as declared).  Its
`__post_init__` generates a random 32-character secret when SRS is
enabled and no secret was supplied; random generation is an external
effect and is not modelled — the `secret` field keeps the supplied
value.  No claim concerns the secret. -/
structure SRSConfig where
  enabled : Bool := true
  secret : List Char := []
  domain : Option (List Char) := none
  exclude_domains : Finset (List Char) := ∅
deriving DecidableEq

/-- `DKIMConfig` dataclass. -/
structure DKIMConfig where
  enabled : Bool := true
  selector : List Char := "mail".toList
  key_size : Int := 2048
  domains : Finset (List Char) := ∅
deriving DecidableEq

/-- `TLSConfig` dataclass. -/
structure TLSConfig where
  enabled : Bool := true
  email : List Char := []
  domains : Finset (List Char) := ∅
  challenge_type : List Char := "tls-alpn".toList
  staging : Bool := false
  renewal_days : Int := 7
  use_letsencrypt : Bool := true
  key_size : Int := 2048
  params_bits : Int := 2048
  security_level : List Char := "may".toList
  protocols : List Char := "!SSLv2, !SSLv3".toList
  ciphers : List Char := "high".toList
deriving DecidableEq

/-- `SMTPConfig` dataclass (declared field defaults; `__post_init__` is
`SMTPConfig.postInit` below).  `smtp_users` is a Python dict embedded as
an ordered association list with unique keys. -/
structure SMTPConfig where
  hostname : List Char := "mail.example.com".toList
  relay_host : Option (List Char) := none
  relay_port : Int := 25
  relay_username : Option (List Char) := none
  relay_password : Option (List Char) := none
  use_tls : Bool := true
  helo_name : Option (List Char) := none
  enable_smtp : Bool := true
  enable_submission : Bool := true
  enable_smtps : Bool := true
  smtp_auth_enabled : Bool := false
  smtp_users : List (List Char × List Char) := []
deriving DecidableEq

/-- Truthiness of an optional string in Python: `None` and the empty
string are falsy. -/
def optTruthy : Option (List Char) → Bool
  | none => false
  | some l => !l.isEmpty

/-- `SMTPConfig.__post_init__`: default `helo_name` to `hostname` when
falsy, and set `smtp_auth_enabled` when `smtp_users` is non-empty.  It
runs at dataclass construction only; later in-place mutation of the
fields does not re-run it. -/
def SMTPConfig.postInit (c : SMTPConfig) : SMTPConfig :=
  let c := if optTruthy c.helo_name then c else { c with helo_name := some c.hostname }
  if !c.smtp_users.isEmpty then { c with smtp_auth_enabled := true } else c

/-- `SRSConfig.__post_init__` (see `SRSConfig`): the random secret
generation is not modelled, so this is the identity on the embedded
fields. -/
def SRSConfig.postInit (c : SRSConfig) : SRSConfig := c

/-- `SecurityConfig` dataclass. -/
structure SecurityConfig where
  fail2ban_enabled : Bool := true
  max_attempts : Int := 5
  ban_time : Int := 3600
  find_time : Int := 600
deriving DecidableEq

/-- `Configuration` dataclass: the aggregate configuration container.
The dataclass default factories construct the sub-configs, running
their `__post_init__`. -/
structure Configuration where
  debug : Bool := false
  smtp : SMTPConfig := SMTPConfig.postInit {}
  dkim : DKIMConfig := {}
  tls : TLSConfig := {}
  security : SecurityConfig := {}
  srs : SRSConfig := SRSConfig.postInit {}
  forwarding_rules : List ForwardingRule := []
deriving DecidableEq

/-- The `ValueError`s raised by `Configuration.validate`, by raise
site. -/
inductive ConfigError where
  /-- "SMTP hostname cannot be empty" -/
  | emptyHostname
  /-- "No forwarding rules defined" -/
  | noForwardingRules
  /-- "TLS is enabled but no email provided for Lets Encrypt" -/
  | tlsEmailMissing
  /-- "Relay username provided but no password" -/
  | relayPasswordMissing
deriving DecidableEq

/-- `hostname.split('.', 1)[-1] if '.' in hostname else hostname`:
everything after the first dot, or the whole hostname without a dot. -/
def hostnameDomain (h : List Char) : List Char :=
  match splitAtFirst '.' h with
  | some (_, rest) => rest
  | none => h

/-- One iteration of the `all_domains` loop of `validate`:
`domain = rule.domain; if domain: all_domains.add(domain)` — the domain
is added when truthy (present and non-empty). -/
def ruleDomainsStep (s : Finset (List Char)) (r : ForwardingRule) : Finset (List Char) :=
  match r.domain with
  | some d => if d ≠ [] then insert d s else s
  | none => s

/-- The `all_domains` loop of `validate` over the forwarding rules. -/
def ruleDomains (rules : List ForwardingRule) : Finset (List Char) :=
  rules.foldl ruleDomainsStep ∅

/-- `all_domains` of `validate`: rule domains plus the hostname's parent
domain. -/
def allDomains (c : Configuration) : Finset (List Char) :=
  insert (hostnameDomain c.smtp.hostname) (ruleDomains c.forwarding_rules)

/-- `validate` step: set DKIM domains to `ad` when unset and enabled. -/
def deriveDKIM (ad : Finset (List Char)) (c : Configuration) : Configuration :=
  if c.dkim.domains = ∅ ∧ c.dkim.enabled = true then
    { c with dkim := { c.dkim with domains := ad } }
  else c

/-- `validate` step: set TLS domains to `{hostname} ∪ ad` when unset and
enabled (`add` of the hostname followed by `update` with `ad` on an
empty set). -/
def deriveTLS (ad : Finset (List Char)) (c : Configuration) : Configuration :=
  if c.tls.domains = ∅ ∧ c.tls.enabled = true then
    { c with tls := { c.tls with domains := insert c.smtp.hostname ad } }
  else c

/-- `validate` step: set the SRS domain to the SMTP hostname when SRS is
enabled and the domain is falsy (`None` or empty). -/
def deriveSRS (c : Configuration) : Configuration :=
  if c.srs.enabled = true ∧ optTruthy c.srs.domain = false then
    { c with srs := { c.srs with domain := some c.smtp.hostname } }
  else c

/-- `Configuration.validate`: validation plus smart defaults, mutating
in place and raising `ValueError` on a violated invariant.  Embedded as
returning the state after the call together with the raised error, if
any (an exception leaves the mutations performed before the raise). -/
def Configuration.validate (c : Configuration) : Configuration × Option ConfigError :=
  if c.smtp.hostname = [] then (c, some ConfigError.emptyHostname)
  else if c.forwarding_rules = [] then (c, some ConfigError.noForwardingRules)
  else
    let c3 := deriveSRS (deriveTLS (allDomains c) (deriveDKIM (allDomains c) c))
    if c3.tls.enabled = true ∧ c3.tls.email = [] then
      (c3, some ConfigError.tlsEmailMissing)
    else if optTruthy c3.smtp.relay_host = true ∧ optTruthy c3.smtp.relay_username = true
        ∧ optTruthy c3.smtp.relay_password = false then
      (c3, some ConfigError.relayPasswordMissing)
    else (c3, none)

/-- Python dict assignment `m[k] = v` on an association list with unique
keys: update the value of an existing key in place, else append. -/
def dictInsert : List (List Char × List Char) → List Char → List Char →
    List (List Char × List Char)
  | [], k, v => [(k, v)]
  | (k0, v0) :: t, k, v =>
    if k0 = k then (k0, v) :: t else (k0, v0) :: dictInsert t k v

/-- An environment: a finite mapping from variable names to values,
embedded as an association list with unique keys. -/
def Env := List (List Char × List Char)

/-- Python `env_vars.get(key)` (default `None`). -/
def envLookup (env : Env) (k : List Char) : Option (List Char) :=
  List.lookup k env

/-- Python `env_vars.get(key, d)`. -/
def envGetD (env : Env) (k : List Char) (d : List Char) : List Char :=
  (envLookup env k).getD d

/-- Shorthand for embedding a string literal as a `List Char`. -/
def str (s : String) : List Char := s.toList

/-- `parse_bool`: case-insensitive membership in
`('true', 'yes', '1', 'on')`. -/
def parse_bool (v : List Char) : Bool :=
  [str "true", str "yes", str "1", str "on"].contains (v.map Char.toLower)

/-- Python `int(...)` on a string: optional surrounding whitespace, an
optional sign, then decimal digits (digit-group underscores are not
modelled; no integer claim depends on them). -/
def pyParseInt (s : List Char) : Option Int :=
  let digitsVal : List Char → Option Int := fun ds =>
    if !ds.isEmpty && ds.all Char.isDigit then
      some (ds.foldl (fun a c => a * 10 + (Int.ofNat (c.toNat - 48))) 0)
    else none
  match strip s with
  | '-' :: ds => (digitsVal ds).map (fun n => -n)
  | '+' :: ds => digitsVal ds
  | ds => digitsVal ds

/-- `parse_int`: parse a decimal integer, falling back to `default` on
failure. -/
def parse_int (v : List Char) (default : Int) : Int :=
  (pyParseInt v).getD default

/-- The `SMTP_USERS` loop of `from_environment`: `;`-delimited pairs;
pairs containing a `:` are split on the first `:`; when both raw halves
are non-empty the stripped pair is inserted into the dict. -/
def parseSMTPUsers (s : List Char) : List (List Char × List Char) :=
  if s = [] then []
  else
    (s.splitOn ';').foldl
      (fun m pair =>
        match splitAtFirst ':' pair with
        | some (u, p) =>
          if u ≠ [] ∧ p ≠ [] then dictInsert m (strip u) (strip p) else m
        | none => m)
      []

/-- `parse_forwarding_rules`: read `FORWARD_RULES`, split on `;`, strip
and drop empty entries, split each entry on the first `:`, strip source
and destination, detect wildcards syntactically, and keep the rules
whose construction succeeds. -/
def parse_forwarding_rules (env : Env) : List ForwardingRule :=
  match envLookup env (str "FORWARD_RULES") with
  | none => []
  | some rule_str =>
    (((rule_str.splitOn ';').map strip).filter (· ≠ [])).foldl
      (fun rules part =>
        match splitAtFirst ':' part with
        | some (s0, d0) =>
          let source := strip s0
          let destination := strip d0
          let is_wildcard := source.take 2 = str "*@" ∨ source.take 2 = str "*."
          match mkForwardingRule source destination is_wildcard with
          | some r => rules ++ [r]
          | none => rules
        | none => rules)
      []

/-- The domain-set parsing idiom of `from_environment`, used for
`DKIM_DOMAINS`, `TLS_DOMAINS` and `SRS_EXCLUDE_DOMAINS`: when the
variable is present and non-empty, the set of the comma-separated
elements, each stripped; otherwise the empty set. -/
def parseDomainSet (env : Env) (key : List Char) : Finset (List Char) :=
  let v := envGetD env key []
  if v ≠ [] then ((v.splitOn ',').map strip).toFinset else ∅

/-- `from_environment`: build a `Configuration` from the environment and
validate it, re-raising any validation error. -/
def from_environment (env : Env) : Except ConfigError Configuration :=
  let hostname := envGetD env (str "SMTP_HOSTNAME") (str "mail.example.com")
  let smtp : SMTPConfig :=
    { SMTPConfig.postInit {} with
      hostname := hostname
      helo_name := some (envGetD env (str "SMTP_HELO_NAME") hostname)
      relay_host := envLookup env (str "SMTP_RELAY_HOST")
      relay_port := parse_int (envGetD env (str "SMTP_RELAY_PORT") (str "587")) 587
      relay_username := envLookup env (str "SMTP_RELAY_USERNAME")
      relay_password := envLookup env (str "SMTP_RELAY_PASSWORD")
      use_tls := parse_bool (envGetD env (str "SMTP_RELAY_USE_TLS") (str "true"))
      smtp_users := parseSMTPUsers (envGetD env (str "SMTP_USERS") [])
      enable_smtp := parse_bool (envGetD env (str "SMTP_ENABLE_PORT_25") (str "true"))
      enable_submission := parse_bool (envGetD env (str "SMTP_ENABLE_PORT_587") (str "true"))
      enable_smtps := parse_bool (envGetD env (str "SMTP_ENABLE_PORT_465") (str "true")) }
  let dkim : DKIMConfig :=
    { enabled := parse_bool (envGetD env (str "DKIM_ENABLED") (str "true"))
      selector := envGetD env (str "DKIM_SELECTOR") (str "mail")
      key_size := parse_int (envGetD env (str "DKIM_KEY_SIZE") (str "2048")) 2048
      domains := parseDomainSet env (str "DKIM_DOMAINS") }
  let tls : TLSConfig :=
    { enabled := parse_bool (envGetD env (str "TLS_ENABLED") (str "true"))
      email := envGetD env (str "ACME_EMAIL") []
      domains := parseDomainSet env (str "TLS_DOMAINS")
      challenge_type := (envGetD env (str "TLS_CHALLENGE_TYPE") (str "tls-alpn")).map Char.toLower
      staging := parse_bool (envGetD env (str "TLS_STAGING") (str "false"))
      renewal_days := parse_int (envGetD env (str "TLS_RENEWAL_DAYS") (str "30")) 30
      use_letsencrypt := parse_bool (envGetD env (str "TLS_USE_LETSENCRYPT") (str "true"))
      key_size := parse_int (envGetD env (str "TLS_KEY_SIZE") (str "2048")) 2048
      params_bits := parse_int (envGetD env (str "TLS_PARAMS_BITS") (str "2048")) 2048
      security_level := envGetD env (str "TLS_SECURITY_LEVEL") (str "may")
      protocols := envGetD env (str "TLS_PROTOCOLS") (str "!SSLv2, !SSLv3")
      ciphers := envGetD env (str "TLS_CIPHERS") (str "high") }
  let srs : SRSConfig :=
    SRSConfig.postInit
      { enabled := parse_bool (envGetD env (str "SRS_ENABLED") (str "true"))
        secret := envGetD env (str "SRS_SECRET") []
        domain := envLookup env (str "SRS_DOMAIN")
        exclude_domains := parseDomainSet env (str "SRS_EXCLUDE_DOMAINS") }
  let security : SecurityConfig :=
    { fail2ban_enabled := parse_bool (envGetD env (str "FAIL2BAN_ENABLED") (str "true"))
      max_attempts := parse_int (envGetD env (str "FAIL2BAN_MAX_ATTEMPTS") (str "5")) 5
      ban_time := parse_int (envGetD env (str "FAIL2BAN_BAN_TIME") (str "3600")) 3600
      find_time := parse_int (envGetD env (str "FAIL2BAN_FIND_TIME") (str "600")) 600 }
  let config : Configuration :=
    { debug := parse_bool (envGetD env (str "DEBUG") (str "false"))
      smtp := smtp
      dkim := dkim
      tls := tls
      security := security
      srs := srs
      forwarding_rules := parse_forwarding_rules env }
  match config.validate with
  | (c, none) => Except.ok c
  | (_, some e) => Except.error e

/-- Whether a `from_environment` run returned without raising. -/
def isOkE : Except ConfigError Configuration → Bool
  | Except.ok _ => true
  | Except.error _ => false

/-- The configuration returned by a successful `from_environment` run
(a default configuration when the run raised). -/
def okConfig : Except ConfigError Configuration → Configuration
  | Except.ok c => c
  | Except.error _ => {}

/-! ## Correctness of the regex matchers -/

/-- The shape described by the regex fragment `[^@\s]+\.[^@\s]+`. -/
def DomainShape (d : List Char) : Prop :=
  ∃ p q, d = p ++ '.' :: q ∧ p ≠ [] ∧ q ≠ [] ∧ p.all okChar = true ∧ q.all okChar = true

/-- The shape described by the email regex `^[^@\s]+@[^@\s]+\.[^@\s]+$`. -/
def EmailShape (s : List Char) : Prop :=
  ∃ u p q, s = u ++ '@' :: (p ++ '.' :: q) ∧ u ≠ [] ∧ p ≠ [] ∧ q ≠ [] ∧
    u.all okChar = true ∧ p.all okChar = true ∧ q.all okChar = true

/-- The shape described by the wildcard-source regex
`^(\*|\*\.[^@\s]+)@[^@\s]+\.[^@\s]+$`. -/
def WildShape (s : List Char) : Prop :=
  (∃ p q, s = '*' :: '@' :: (p ++ '.' :: q) ∧ p ≠ [] ∧ q ≠ [] ∧
    p.all okChar = true ∧ q.all okChar = true) ∨
  (∃ w p q, s = '*' :: '.' :: (w ++ '@' :: (p ++ '.' :: q)) ∧ w ≠ [] ∧
    w.all okChar = true ∧ p ≠ [] ∧ q ≠ [] ∧ p.all okChar = true ∧ q.all okChar = true)

theorem okChar_ne_at {c : Char} (h : okChar c = true) : c ≠ '@' := by
  intro hc
  subst hc
  simp [okChar] at h

theorem splitAtFirst_nil (sep : Char) : splitAtFirst sep [] = none := rfl

theorem splitAtFirst_cons (sep c : Char) (rest : List Char) :
    splitAtFirst sep (c :: rest) =
      if c = sep then some ([], rest)
      else (splitAtFirst sep rest).map (fun p => (c :: p.1, p.2)) := rfl

theorem splitAtFirst_append (sep : Char) (u v : List Char) (h : ∀ c ∈ u, c ≠ sep) :
    splitAtFirst sep (u ++ sep :: v) = some (u, v) := by
  induction u with
  | nil => simp [splitAtFirst_cons]
  | cons c t ih =>
    have hc : c ≠ sep := h c (by simp)
    have ih' := ih (fun x hx => h x (by simp [hx]))
    rw [List.cons_append, splitAtFirst_cons, if_neg hc, ih']
    rfl

theorem splitAtFirst_eq_some (sep : Char) :
    ∀ s a b, splitAtFirst sep s = some (a, b) →
      s = a ++ sep :: b ∧ ∀ c ∈ a, c ≠ sep := by
  intro s
  induction s with
  | nil => intro a b h; rw [splitAtFirst_nil] at h; exact absurd h (by simp)
  | cons c t ih =>
    intro a b h
    by_cases hc : c = sep
    · rw [splitAtFirst_cons, if_pos hc] at h
      have ha : a = [] := (Prod.mk.injEq .. ▸ (Option.some.injEq .. ▸ h)).1.symm
      have hb : b = t := (Prod.mk.injEq .. ▸ (Option.some.injEq .. ▸ h)).2.symm
      subst ha; subst hb; subst hc
      exact ⟨rfl, by simp⟩
    · rw [splitAtFirst_cons, if_neg hc] at h
      obtain ⟨⟨a', b'⟩, hsplit, heq⟩ := Option.map_eq_some'.mp h
      have ha : c :: a' = a := (Prod.mk.injEq .. ▸ heq).1
      have hb : b' = b := (Prod.mk.injEq .. ▸ heq).2
      obtain ⟨hs, hall⟩ := ih a' b' hsplit
      subst hb
      constructor
      · rw [← ha, hs]; simp
      · intro x hx
        rw [← ha] at hx
        rcases List.mem_cons.mp hx with h1 | h2
        · exact h1 ▸ hc
        · exact hall x h2

theorem hasDotBeforeEnd_cons₂ (c c2 : Char) (t2 : List Char) :
    hasDotBeforeEnd (c :: c2 :: t2) = ((c == '.') || hasDotBeforeEnd (c2 :: t2)) := rfl

theorem hasDotBeforeEnd_iff :
    ∀ l : List Char, hasDotBeforeEnd l = true ↔ ∃ a b, l = a ++ '.' :: b ∧ b ≠ [] := by
  intro l
  induction l with
  | nil =>
    constructor
    · intro h; exact absurd h (by decide)
    · rintro ⟨a, b, h, -⟩; exact absurd h.symm (by simp)
  | cons c t ih =>
    cases t with
    | nil =>
      constructor
      · intro h; exact absurd h (by simp [hasDotBeforeEnd])
      · rintro ⟨a, b, h, hb⟩
        cases a with
        | nil =>
          simp only [List.nil_append, List.cons.injEq] at h
          exact (hb h.2.symm).elim
        | cons a0 a' =>
          simp only [List.cons_append, List.cons.injEq] at h
          exact absurd h.2.symm (by simp)
    | cons c2 t2 =>
      rw [hasDotBeforeEnd_cons₂]
      constructor
      · intro h
        rcases Bool.or_eq_true_iff.mp h with h1 | h2
        · exact ⟨[], c2 :: t2, by simp [beq_iff_eq.mp h1], by simp⟩
        · obtain ⟨a, b, heq, hb⟩ := ih.mp h2
          exact ⟨c :: a, b, by simp [heq], hb⟩
      · rintro ⟨a, b, heq, hb⟩
        cases a with
        | nil =>
          simp only [List.nil_append, List.cons.injEq] at heq
          simp [heq.1]
        | cons a0 a' =>
          simp only [List.cons_append, List.cons.injEq] at heq
          exact Bool.or_eq_true_iff.mpr (Or.inr (ih.mpr ⟨a', b, heq.2, hb⟩))

theorem matchDomain_iff (d : List Char) : matchDomain d = true ↔ DomainShape d := by
  unfold matchDomain
  constructor
  · intro h
    obtain ⟨hall, hmid⟩ := Bool.and_eq_true_iff.mp h
    cases d with
    | nil => exact absurd hmid (by decide)
    | cons c t =>
      have hmid' : hasDotBeforeEnd t = true := hmid
      obtain ⟨a, b, heq, hb⟩ := (hasDotBeforeEnd_iff t).mp hmid'
      subst heq
      refine ⟨c :: a, b, by simp, by simp, hb, ?_, ?_⟩
      · simp only [List.all_cons, List.all_append, Bool.and_eq_true_iff] at hall ⊢
        exact ⟨hall.1, hall.2.1⟩
      · simp only [List.all_cons, List.all_append, Bool.and_eq_true_iff] at hall
        exact hall.2.2.2
  · rintro ⟨p, q, rfl, hp, hq, hap, haq⟩
    refine Bool.and_eq_true_iff.mpr ⟨?_, ?_⟩
    · simp only [List.all_append, List.all_cons, Bool.and_eq_true_iff]
      exact ⟨hap, by decide, haq⟩
    · cases p with
      | nil => exact absurd rfl hp
      | cons p0 p' =>
        rw [List.cons_append]
        show hasDotBeforeEnd (p' ++ '.' :: q) = true
        exact (hasDotBeforeEnd_iff _).mpr ⟨p', q, rfl, hq⟩

theorem all_okChar_ne_at {u : List Char} (h : u.all okChar = true) :
    ∀ c ∈ u, c ≠ '@' :=
  fun c hc => okChar_ne_at (List.all_eq_true.mp h c hc)

theorem emailCore_iff (s : List Char) : emailCore s = true ↔ EmailShape s := by
  constructor
  · intro h
    unfold emailCore at h
    rcases hsp : splitAtFirst '@' s with - | ⟨u, d⟩
    · rw [hsp] at h; exact absurd h (by decide)
    · rw [hsp] at h
      obtain ⟨⟨hne, hall⟩, hdom⟩ :=
        Bool.and_eq_true_iff.mp h |>.imp Bool.and_eq_true_iff.mp id
      obtain ⟨hs, -⟩ := splitAtFirst_eq_some '@' s u d hsp
      obtain ⟨p, q, hd, hp, hq, hap, haq⟩ := (matchDomain_iff d).mp hdom
      exact ⟨u, p, q, by rw [hs, hd], by simpa using hne, hp, hq, hall, hap, haq⟩
  · rintro ⟨u, p, q, rfl, hu, hp, hq, hau, hap, haq⟩
    unfold emailCore
    rw [splitAtFirst_append '@' u (p ++ '.' :: q) (all_okChar_ne_at hau)]
    refine Bool.and_eq_true_iff.mpr ⟨Bool.and_eq_true_iff.mpr ⟨by simpa using hu, hau⟩, ?_⟩
    exact (matchDomain_iff _).mpr ⟨p, q, rfl, hp, hq, hap, haq⟩

theorem wildPre_iff (l : List Char) :
    wildPre l = true ↔
      l = ['*'] ∨ ∃ w, l = '*' :: '.' :: w ∧ w ≠ [] ∧ w.all okChar = true := by
  cases l with
  | nil => constructor
           · intro h; exact absurd h (by decide)
           · rintro (h | ⟨w, h, -, -⟩) <;> exact absurd h (by simp)
  | cons c t =>
    cases t with
    | nil =>
      show (c == '*') = true ↔ _
      constructor
      · intro h; exact Or.inl (by simp [beq_iff_eq.mp h])
      · rintro (h | ⟨w, h, -, -⟩)
        · simp only [List.cons.injEq] at h; simp [h.1]
        · exact absurd h (by simp)
    | cons c2 t2 =>
      show (c == '*' && (c2 == '.') && !t2.isEmpty && t2.all okChar) = true ↔ _
      constructor
      · intro h
        simp only [Bool.and_eq_true_iff, beq_iff_eq, Bool.not_eq_true',
          List.isEmpty_eq_false] at h
        obtain ⟨⟨⟨hc, hc2⟩, hne⟩, hall⟩ := h
        exact Or.inr ⟨t2, by rw [hc, hc2], hne, hall⟩
      · rintro (h | ⟨w, h, hw, hall⟩)
        · exact absurd h (by simp)
        · simp only [List.cons.injEq] at h
          have hc := h.1
          have hc2 := h.2.1
          have ht := h.2.2
          subst hc; subst hc2; subst ht
          simp [hw, hall, List.isEmpty_eq_false.mpr hw]

theorem wildCore_iff (s : List Char) :
    wildCore s = true ↔ WildShape s := by
  constructor
  · intro h
    unfold wildCore at h
    rcases hsp : splitAtFirst '@' s with - | ⟨pre, d⟩
    · rw [hsp] at h; exact absurd h (by decide)
    · rw [hsp] at h
      obtain ⟨hpre, hdom⟩ := Bool.and_eq_true_iff.mp h
      obtain ⟨hs, -⟩ := splitAtFirst_eq_some '@' s pre d hsp
      obtain ⟨p, q, hd, hp, hq, hap, haq⟩ := (matchDomain_iff d).mp hdom
      rcases (wildPre_iff pre).mp hpre with h1 | ⟨w, h2, hw, haw⟩
      · exact Or.inl ⟨p, q, by rw [hs, h1, hd]; rfl, hp, hq, hap, haq⟩
      · exact Or.inr ⟨w, p, q, by rw [hs, h2, hd]; simp, hw, haw, hp, hq, hap, haq⟩
  · intro h
    unfold wildCore
    rcases h with ⟨p, q, rfl, hp, hq, hap, haq⟩ | ⟨w, p, q, rfl, hw, haw, hp, hq, hap, haq⟩
    · have : splitAtFirst '@' ('*' :: '@' :: (p ++ '.' :: q)) = some (['*'], p ++ '.' :: q) :=
        splitAtFirst_append '@' ['*'] (p ++ '.' :: q) (by decide)
      rw [this]
      refine Bool.and_eq_true_iff.mpr ⟨by decide, ?_⟩
      exact (matchDomain_iff _).mpr ⟨p, q, rfl, hp, hq, hap, haq⟩
    · have heq : '*' :: '.' :: (w ++ '@' :: (p ++ '.' :: q)) =
          ('*' :: '.' :: w) ++ '@' :: (p ++ '.' :: q) := by simp
      rw [heq]
      rw [splitAtFirst_append '@' ('*' :: '.' :: w) (p ++ '.' :: q) ?hne]
      case hne =>
        intro c hc
        rcases List.mem_cons.mp hc with rfl | hc2
        · decide
        · rcases List.mem_cons.mp hc2 with rfl | hc3
          · decide
          · exact all_okChar_ne_at haw c hc3
      refine Bool.and_eq_true_iff.mpr ⟨?_, ?_⟩
      · exact (wildPre_iff _).mpr (Or.inr ⟨w, rfl, hw, haw⟩)
      · exact (matchDomain_iff _).mpr ⟨p, q, rfl, hp, hq, hap, haq⟩

/-- What the anchored email regex accepts under Python's `$` semantics:
the email shape, of the whole string or of the string minus one final
newline. -/
def EmailAccept (s : List Char) : Prop :=
  EmailShape s ∨ ∃ b, s = b ++ ['\n'] ∧ EmailShape b

/-- What the anchored wildcard-source regex accepts under Python's `$`
semantics. -/
def WildAccept (s : List Char) : Prop :=
  WildShape s ∨ ∃ b, s = b ++ ['\n'] ∧ WildShape b

theorem dropFinalNewline_eq_some :
    ∀ s b : List Char, dropFinalNewline s = some b ↔ s = b ++ ['\n'] := by
  intro s
  induction s with
  | nil =>
    intro b
    constructor
    · intro h; exact absurd h (by simp [dropFinalNewline])
    · intro h; exact absurd h.symm (by simp)
  | cons c t ih =>
    intro b
    cases t with
    | nil =>
      show (if c = '\n' then some [] else none) = some b ↔ [c] = b ++ ['\n']
      by_cases hc : c = '\n'
      · rw [if_pos hc]
        constructor
        · intro h
          have hb : b = [] := (Option.some.injEq .. ▸ h).symm
          rw [hb, hc]; rfl
        · intro h
          cases b with
          | nil => rfl
          | cons b0 b' =>
            simp only [List.cons_append, List.cons.injEq] at h
            exact absurd h.2.symm (by simp)
      · rw [if_neg hc]
        constructor
        · intro h; exact absurd h (by simp)
        · intro h
          cases b with
          | nil =>
            simp only [List.nil_append, List.cons.injEq] at h
            exact absurd h.1 hc
          | cons b0 b' =>
            simp only [List.cons_append, List.cons.injEq] at h
            exact absurd h.2.symm (by simp)
    | cons c2 t2 =>
      show (dropFinalNewline (c2 :: t2)).map (c :: ·) = some b ↔
        c :: c2 :: t2 = b ++ ['\n']
      constructor
      · intro h
        obtain ⟨b', hb', heq⟩ := Option.map_eq_some'.mp h
        rw [← heq, List.cons_append, (ih b').mp hb']
      · intro h
        cases b with
        | nil => simp only [List.nil_append, List.cons.injEq] at h; exact absurd h.2 (by simp)
        | cons b0 b' =>
          simp only [List.cons_append, List.cons.injEq] at h
          rw [h.1]
          exact Option.map_eq_some'.mpr ⟨b', (ih b').mpr h.2, rfl⟩

theorem withDollar_iff (core : List Char → Bool) (P : List Char → Prop)
    (hcore : ∀ s, core s = true ↔ P s) (s : List Char) :
    withDollar core s = true ↔ P s ∨ ∃ b, s = b ++ ['\n'] ∧ P b := by
  unfold withDollar
  rw [Bool.or_eq_true_iff]
  constructor
  · rintro (h | h)
    · exact Or.inl ((hcore s).mp h)
    · rcases hd : dropFinalNewline s with - | b
      · rw [hd] at h; exact absurd h Bool.false_ne_true
      · rw [hd] at h
        exact Or.inr ⟨b, (dropFinalNewline_eq_some s b).mp hd, (hcore b).mp h⟩
  · rintro (h | ⟨b, rfl, hb⟩)
    · exact Or.inl ((hcore s).mpr h)
    · refine Or.inr ?_
      rw [(dropFinalNewline_eq_some (b ++ ['\n']) b).mpr rfl]
      exact (hcore b).mpr hb

theorem matchEmail_iff (s : List Char) : matchEmail s = true ↔ EmailAccept s :=
  withDollar_iff emailCore EmailShape emailCore_iff s

theorem matchWildcardSource_iff (s : List Char) :
    matchWildcardSource s = true ↔ WildAccept s :=
  withDollar_iff wildCore WildShape wildCore_iff s

theorem EmailShape_mem {s : List Char} (h : EmailShape s) : '@' ∈ s ∧ '.' ∈ s := by
  obtain ⟨u, p, q, rfl, -, -, -, -, -, -⟩ := h
  constructor <;> simp

theorem WildShape_mem {s : List Char} (h : WildShape s) : '@' ∈ s ∧ '.' ∈ s := by
  rcases h with ⟨p, q, rfl, -, -, -, -⟩ | ⟨w, p, q, rfl, -, -, -, -, -, -⟩
  · constructor <;> simp
  · constructor <;> simp

theorem EmailAccept_mem {s : List Char} (h : EmailAccept s) : '@' ∈ s ∧ '.' ∈ s := by
  rcases h with h | ⟨b, rfl, hb⟩
  · exact EmailShape_mem h
  · obtain ⟨h1, h2⟩ := EmailShape_mem hb
    exact ⟨List.mem_append_left _ h1, List.mem_append_left _ h2⟩

theorem WildAccept_mem {s : List Char} (h : WildAccept s) : '@' ∈ s ∧ '.' ∈ s := by
  rcases h with h | ⟨b, rfl, hb⟩
  · exact WildShape_mem h
  · obtain ⟨h1, h2⟩ := WildShape_mem hb
    exact ⟨List.mem_append_left _ h1, List.mem_append_left _ h2⟩

theorem mkForwardingRule_isSome (s d : List Char) (w : Bool) :
    (mkForwardingRule s d w).isSome = true ↔
      ((if w = true then matchWildcardSource s else matchEmail s) = true ∧
        matchEmail d = true) := by
  unfold mkForwardingRule
  cases w <;> by_cases hs : matchEmail s = true <;>
    by_cases hw : matchWildcardSource s = true <;>
    by_cases hd : matchEmail d = true <;>
    simp_all

/-! ## Structure of `validate` -/

theorem deriveDKIM_smtp (ad : Finset (List Char)) (c : Configuration) :
    (deriveDKIM ad c).smtp = c.smtp := by
  unfold deriveDKIM; split <;> rfl

theorem deriveDKIM_tls (ad : Finset (List Char)) (c : Configuration) :
    (deriveDKIM ad c).tls = c.tls := by
  unfold deriveDKIM; split <;> rfl

theorem deriveDKIM_srs (ad : Finset (List Char)) (c : Configuration) :
    (deriveDKIM ad c).srs = c.srs := by
  unfold deriveDKIM; split <;> rfl

theorem deriveDKIM_rules (ad : Finset (List Char)) (c : Configuration) :
    (deriveDKIM ad c).forwarding_rules = c.forwarding_rules := by
  unfold deriveDKIM; split <;> rfl

theorem deriveDKIM_dkim_enabled (ad : Finset (List Char)) (c : Configuration) :
    (deriveDKIM ad c).dkim.enabled = c.dkim.enabled := by
  unfold deriveDKIM; split <;> rfl

theorem deriveDKIM_domains (ad : Finset (List Char)) (c : Configuration) :
    (deriveDKIM ad c).dkim.domains =
      if c.dkim.domains = ∅ ∧ c.dkim.enabled = true then ad else c.dkim.domains := by
  unfold deriveDKIM
  by_cases h : c.dkim.domains = ∅ ∧ c.dkim.enabled = true <;> simp [h]

theorem deriveTLS_smtp (ad : Finset (List Char)) (c : Configuration) :
    (deriveTLS ad c).smtp = c.smtp := by
  unfold deriveTLS; split <;> rfl

theorem deriveTLS_dkim (ad : Finset (List Char)) (c : Configuration) :
    (deriveTLS ad c).dkim = c.dkim := by
  unfold deriveTLS; split <;> rfl

theorem deriveTLS_srs (ad : Finset (List Char)) (c : Configuration) :
    (deriveTLS ad c).srs = c.srs := by
  unfold deriveTLS; split <;> rfl

theorem deriveTLS_rules (ad : Finset (List Char)) (c : Configuration) :
    (deriveTLS ad c).forwarding_rules = c.forwarding_rules := by
  unfold deriveTLS; split <;> rfl

theorem deriveTLS_tls_enabled (ad : Finset (List Char)) (c : Configuration) :
    (deriveTLS ad c).tls.enabled = c.tls.enabled := by
  unfold deriveTLS; split <;> rfl

theorem deriveTLS_tls_email (ad : Finset (List Char)) (c : Configuration) :
    (deriveTLS ad c).tls.email = c.tls.email := by
  unfold deriveTLS; split <;> rfl

theorem deriveTLS_domains (ad : Finset (List Char)) (c : Configuration) :
    (deriveTLS ad c).tls.domains =
      if c.tls.domains = ∅ ∧ c.tls.enabled = true then insert c.smtp.hostname ad
      else c.tls.domains := by
  unfold deriveTLS
  by_cases h : c.tls.domains = ∅ ∧ c.tls.enabled = true <;> simp [h]

theorem deriveSRS_smtp (c : Configuration) : (deriveSRS c).smtp = c.smtp := by
  unfold deriveSRS; split <;> rfl

theorem deriveSRS_dkim (c : Configuration) : (deriveSRS c).dkim = c.dkim := by
  unfold deriveSRS; split <;> rfl

theorem deriveSRS_tls (c : Configuration) : (deriveSRS c).tls = c.tls := by
  unfold deriveSRS; split <;> rfl

theorem deriveSRS_rules (c : Configuration) :
    (deriveSRS c).forwarding_rules = c.forwarding_rules := by
  unfold deriveSRS; split <;> rfl

theorem deriveSRS_srs_enabled (c : Configuration) :
    (deriveSRS c).srs.enabled = c.srs.enabled := by
  unfold deriveSRS; split <;> rfl

theorem deriveSRS_domain (c : Configuration) :
    (deriveSRS c).srs.domain =
      if c.srs.enabled = true ∧ optTruthy c.srs.domain = false then some c.smtp.hostname
      else c.srs.domain := by
  unfold deriveSRS
  by_cases h : c.srs.enabled = true ∧ optTruthy c.srs.domain = false <;> simp [h]

/-- The state after the derivation steps of `validate`. -/
def derived (c : Configuration) : Configuration :=
  deriveSRS (deriveTLS (allDomains c) (deriveDKIM (allDomains c) c))

theorem validate_eq (c : Configuration) :
    c.validate =
      if c.smtp.hostname = [] then (c, some ConfigError.emptyHostname)
      else if c.forwarding_rules = [] then (c, some ConfigError.noForwardingRules)
      else if (derived c).tls.enabled = true ∧ (derived c).tls.email = [] then
        (derived c, some ConfigError.tlsEmailMissing)
      else if optTruthy (derived c).smtp.relay_host = true
          ∧ optTruthy (derived c).smtp.relay_username = true
          ∧ optTruthy (derived c).smtp.relay_password = false then
        (derived c, some ConfigError.relayPasswordMissing)
      else (derived c, none) := by
  unfold Configuration.validate derived
  rfl

theorem derived_smtp (c : Configuration) : (derived c).smtp = c.smtp := by
  unfold derived
  rw [deriveSRS_smtp, deriveTLS_smtp, deriveDKIM_smtp]

theorem derived_rules (c : Configuration) :
    (derived c).forwarding_rules = c.forwarding_rules := by
  unfold derived
  rw [deriveSRS_rules, deriveTLS_rules, deriveDKIM_rules]

theorem derived_dkim_enabled (c : Configuration) :
    (derived c).dkim.enabled = c.dkim.enabled := by
  unfold derived
  rw [deriveSRS_dkim, deriveTLS_dkim, deriveDKIM_dkim_enabled]

theorem derived_tls_enabled (c : Configuration) :
    (derived c).tls.enabled = c.tls.enabled := by
  unfold derived
  rw [deriveSRS_tls, deriveTLS_tls_enabled, deriveDKIM_tls]

theorem derived_tls_email (c : Configuration) :
    (derived c).tls.email = c.tls.email := by
  unfold derived
  rw [deriveSRS_tls, deriveTLS_tls_email, deriveDKIM_tls]

theorem derived_srs_enabled (c : Configuration) :
    (derived c).srs.enabled = c.srs.enabled := by
  unfold derived
  rw [deriveSRS_srs_enabled, deriveTLS_srs, deriveDKIM_srs]

theorem derived_dkim_domains (c : Configuration) :
    (derived c).dkim.domains =
      if c.dkim.domains = ∅ ∧ c.dkim.enabled = true then allDomains c
      else c.dkim.domains := by
  unfold derived
  rw [deriveSRS_dkim, deriveTLS_dkim, deriveDKIM_domains]

theorem derived_tls_domains (c : Configuration) :
    (derived c).tls.domains =
      if c.tls.domains = ∅ ∧ c.tls.enabled = true then
        insert c.smtp.hostname (allDomains c)
      else c.tls.domains := by
  unfold derived
  rw [deriveSRS_tls, deriveTLS_domains, deriveDKIM_tls, deriveDKIM_smtp]

theorem derived_srs_domain (c : Configuration) :
    (derived c).srs.domain =
      if c.srs.enabled = true ∧ optTruthy c.srs.domain = false then
        some c.smtp.hostname
      else c.srs.domain := by
  unfold derived
  rw [deriveSRS_domain, deriveTLS_srs, deriveDKIM_srs, deriveTLS_smtp, deriveDKIM_smtp]

theorem allDomains_nonempty (c : Configuration) : allDomains c ≠ ∅ :=
  Finset.insert_ne_empty _ _

theorem validate_fst (c : Configuration) (h1 : c.smtp.hostname ≠ [])
    (h2 : c.forwarding_rules ≠ []) : (c.validate).1 = derived c := by
  rw [validate_eq, if_neg h1, if_neg h2]
  split
  · rfl
  · split <;> rfl

theorem validate_none_iff (c : Configuration) :
    (c.validate).2 = none ↔
      c.smtp.hostname ≠ [] ∧ c.forwarding_rules ≠ [] ∧
      ¬((derived c).tls.enabled = true ∧ (derived c).tls.email = []) ∧
      ¬(optTruthy (derived c).smtp.relay_host = true
        ∧ optTruthy (derived c).smtp.relay_username = true
        ∧ optTruthy (derived c).smtp.relay_password = false) := by
  rw [validate_eq]
  by_cases h1 : c.smtp.hostname = []
  · simp [h1]
  · by_cases h2 : c.forwarding_rules = []
    · simp [h1, h2]
    · by_cases h3 : (derived c).tls.enabled = true ∧ (derived c).tls.email = []
      · simp [h1, h2, h3]
      · by_cases h4 : optTruthy (derived c).smtp.relay_host = true
            ∧ optTruthy (derived c).smtp.relay_username = true
            ∧ optTruthy (derived c).smtp.relay_password = false
        · simp [h1, h2, h3, h4]
        · simp [h1, h2, h3, h4]

theorem mem_ruleDomains_aux (rules : List ForwardingRule) :
    ∀ (s : Finset (List Char)) (d : List Char),
      d ∈ rules.foldl ruleDomainsStep s ↔
      d ∈ s ∨ ∃ r ∈ rules, r.domain = some d ∧ d ≠ [] := by
  induction rules with
  | nil => intro s d; simp
  | cons r t ih =>
    intro s d
    rw [List.foldl_cons, ih]
    rcases hd : r.domain with - | dd
    · have hstep : ruleDomainsStep s r = s := by unfold ruleDomainsStep; rw [hd]
      rw [hstep]
      constructor
      · rintro (hs | ⟨x, hx, hpx⟩)
        · exact Or.inl hs
        · exact Or.inr ⟨x, List.mem_cons_of_mem r hx, hpx⟩
      · rintro (hs | ⟨x, hx, hpx⟩)
        · exact Or.inl hs
        · rcases List.mem_cons.mp hx with rfl | hxt
          · rw [hd] at hpx; exact absurd hpx.1 (by simp)
          · exact Or.inr ⟨x, hxt, hpx⟩
    · by_cases hne : dd ≠ []
      · have hstep : ruleDomainsStep s r = insert dd s := by
          unfold ruleDomainsStep; rw [hd]; exact if_pos hne
        rw [hstep]
        constructor
        · rintro (hins | ⟨x, hx, hpx⟩)
          · rcases Finset.mem_insert.mp hins with rfl | hs
            · exact Or.inr ⟨r, List.mem_cons_self r t, by rw [hd], hne⟩
            · exact Or.inl hs
          · exact Or.inr ⟨x, List.mem_cons_of_mem r hx, hpx⟩
        · rintro (hs | ⟨x, hx, hpx⟩)
          · exact Or.inl (Finset.mem_insert_of_mem hs)
          · rcases List.mem_cons.mp hx with rfl | hxt
            · rw [hd] at hpx
              have hdd : dd = d := Option.some.injEq .. ▸ hpx.1
              exact Or.inl (Finset.mem_insert.mpr (Or.inl hdd.symm))
            · exact Or.inr ⟨x, hxt, hpx⟩
      · have hstep : ruleDomainsStep s r = s := by
          unfold ruleDomainsStep; rw [hd]; exact if_neg hne
        rw [hstep]
        push_neg at hne
        constructor
        · rintro (hs | ⟨x, hx, hpx⟩)
          · exact Or.inl hs
          · exact Or.inr ⟨x, List.mem_cons_of_mem r hx, hpx⟩
        · rintro (hs | ⟨x, hx, hpx⟩)
          · exact Or.inl hs
          · rcases List.mem_cons.mp hx with rfl | hxt
            · rw [hd] at hpx
              have hdd : dd = d := Option.some.injEq .. ▸ hpx.1
              exact absurd (hdd ▸ hne) hpx.2
            · exact Or.inr ⟨x, hxt, hpx⟩

theorem mem_ruleDomains (rules : List ForwardingRule) (d : List Char) :
    d ∈ ruleDomains rules ↔ ∃ r ∈ rules, r.domain = some d ∧ d ≠ [] := by
  unfold ruleDomains
  rw [mem_ruleDomains_aux]
  simp

theorem mem_allDomains (c : Configuration) (d : List Char) :
    d ∈ allDomains c ↔
      d = hostnameDomain c.smtp.hostname ∨
      ∃ r ∈ c.forwarding_rules, r.domain = some d ∧ d ≠ [] := by
  unfold allDomains
  rw [Finset.mem_insert, mem_ruleDomains]

theorem derived_dkim_domains_nonempty (c : Configuration)
    (hen : c.dkim.enabled = true) : (derived c).dkim.domains ≠ ∅ := by
  rw [derived_dkim_domains]
  by_cases hemp : c.dkim.domains = ∅
  · rw [if_pos ⟨hemp, hen⟩]; exact allDomains_nonempty c
  · rw [if_neg (fun h => hemp h.1)]; exact hemp

theorem derived_tls_domains_nonempty (c : Configuration)
    (hen : c.tls.enabled = true) : (derived c).tls.domains ≠ ∅ := by
  rw [derived_tls_domains]
  by_cases hemp : c.tls.domains = ∅
  · rw [if_pos ⟨hemp, hen⟩]; exact Finset.insert_ne_empty _ _
  · rw [if_neg (fun h => hemp h.1)]; exact hemp

theorem derived_srs_domain_truthy (c : Configuration)
    (h1 : c.smtp.hostname ≠ []) (hen : c.srs.enabled = true) :
    optTruthy (derived c).srs.domain = true := by
  rw [derived_srs_domain]
  by_cases htr : optTruthy c.srs.domain = false
  · rw [if_pos ⟨hen, htr⟩]
    show (!c.smtp.hostname.isEmpty) = true
    rw [List.isEmpty_eq_false.mpr h1]
    rfl
  · rw [if_neg (fun h => htr h.2)]
    exact Bool.of_not_eq_false htr

/-! ## Claim theorems -/

/-- Claim C8 (amended): for every configuration with a non-empty SMTP
hostname and an empty forwarding-rule list, `validate` fails with the
"no forwarding rules defined" configuration error, regardless of any
other field.  (The original claim failed to account for the hostname
check, which runs first.) -/
theorem C8_no_rules_error (c : Configuration) (h1 : c.smtp.hostname ≠ [])
    (h2 : c.forwarding_rules = []) :
    (c.validate).2 = some ConfigError.noForwardingRules := by
  rw [validate_eq, if_neg h1, if_pos h2]

/-- A configuration with an empty rule list AND an empty hostname. -/
def cC8 : Configuration := { smtp := { hostname := [] } }

/-- Claim C8 counterexample: with an empty hostname and an empty rule
list, `validate` raises the hostname error, not "no forwarding rules
defined" — refuting "regardless of the validity of any other field
(including the hostname)". -/
theorem C8_counterexample :
    cC8.forwarding_rules = [] ∧
    (cC8.validate).2 = some ConfigError.emptyHostname ∧
    (cC8.validate).2 ≠ some ConfigError.noForwardingRules := by decide

/-- A default configuration: valid hostname, no forwarding rules. -/
def cC8w : Configuration := {}

/-- Witness for C8 at a concrete configuration. -/
theorem C8_witness : (cC8w.validate).2 = some ConfigError.noForwardingRules :=
  C8_no_rules_error cC8w (by decide) (by decide)

/-- Claim C6: when the DKIM domain set was explicitly supplied
(non-empty before derivation), a successful `validate` does not override
it. -/
theorem C6_explicit_dkim_preserved (c : Configuration)
    (hne : c.dkim.domains ≠ ∅) (hok : (c.validate).2 = none) :
    (c.validate).1.dkim.domains = c.dkim.domains := by
  obtain ⟨h1, h2, -, -⟩ := (validate_none_iff c).mp hok
  rw [validate_fst c h1 h2, derived_dkim_domains, if_neg (fun h => hne h.1)]

/-- A configuration with an explicitly supplied DKIM domain set. -/
def cC6 : Configuration :=
  { smtp := SMTPConfig.postInit {}
    dkim := { domains := {str "foo.com"} }
    tls := { email := str "admin@example.com" }
    forwarding_rules :=
      [{ source := str "alice@example.com", destination := str "bob@other.com" }] }

/-- Witness for C6: the explicit set `{foo.com}` survives `validate`
despite the rule domain `example.com`. -/
theorem C6_witness : (cC6.validate).1.dkim.domains = cC6.dkim.domains :=
  C6_explicit_dkim_preserved cC6 (by decide) (by decide)

/-- Claim C2 (amended): with TLS enabled, an empty TLS email, a
non-empty hostname and a non-empty rule list, `validate` raises the
TLS-email configuration error — but the derivation steps run before the
check, so after the failed call the DKIM domain set, TLS domain set and
SRS domain hold their derived values (changed from before whenever they
were empty/unset with the sub-config enabled).  (The original claim said
the state is unchanged on error.) -/
theorem C2_tls_email_error_after_derivation (c : Configuration)
    (htls : c.tls.enabled = true) (hmail : c.tls.email = [])
    (h1 : c.smtp.hostname ≠ []) (h2 : c.forwarding_rules ≠ []) :
    (c.validate).2 = some ConfigError.tlsEmailMissing ∧
    (c.validate).1.dkim.domains =
      (if c.dkim.domains = ∅ ∧ c.dkim.enabled = true then allDomains c
       else c.dkim.domains) ∧
    (c.validate).1.tls.domains =
      (if c.tls.domains = ∅ then insert c.smtp.hostname (allDomains c)
       else c.tls.domains) ∧
    (c.validate).1.srs.domain =
      (if c.srs.enabled = true ∧ optTruthy c.srs.domain = false then
        some c.smtp.hostname
       else c.srs.domain) := by
  have hcond : (derived c).tls.enabled = true ∧ (derived c).tls.email = [] := by
    rw [derived_tls_enabled, derived_tls_email]
    exact ⟨htls, hmail⟩
  have hfst : (c.validate).1 = derived c := validate_fst c h1 h2
  refine ⟨?_, ?_, ?_, ?_⟩
  · rw [validate_eq, if_neg h1, if_neg h2, if_pos hcond]
  · rw [hfst, derived_dkim_domains]
  · rw [hfst, derived_tls_domains]
    simp only [htls, and_true]
  · rw [hfst, derived_srs_domain]

/-- TLS enabled with no email, DKIM domains unset, one valid rule. -/
def cC2 : Configuration :=
  { smtp := SMTPConfig.postInit {}
    forwarding_rules :=
      [{ source := str "alice@example.com", destination := str "bob@other.com" }] }

/-- Claim C2 counterexample: the call fails with the TLS-email error,
yet the DKIM domain set after the failed call differs from the one
before it — the state is NOT unchanged on error. -/
theorem C2_counterexample :
    (cC2.validate).2 = some ConfigError.tlsEmailMissing ∧
    (cC2.validate).1.dkim.domains ≠ cC2.dkim.domains := by decide

/-- Witness for C2 at a concrete configuration. -/
theorem C2_witness :
    (cC2.validate).2 = some ConfigError.tlsEmailMissing ∧
    (cC2.validate).1.dkim.domains =
      (if cC2.dkim.domains = ∅ ∧ cC2.dkim.enabled = true then allDomains cC2
       else cC2.dkim.domains) ∧
    (cC2.validate).1.tls.domains =
      (if cC2.tls.domains = ∅ then insert cC2.smtp.hostname (allDomains cC2)
       else cC2.tls.domains) ∧
    (cC2.validate).1.srs.domain =
      (if cC2.srs.enabled = true ∧ optTruthy cC2.srs.domain = false then
        some cC2.smtp.hostname
       else cC2.srs.domain) :=
  C2_tls_email_error_after_derivation cC2 (by decide) (by decide) (by decide) (by decide)

/-- The configuration of the worked example: rules `alice@example.com`
and `*@example.org`, hostname `mail.example.com`. -/
def cC3 : Configuration :=
  { smtp := SMTPConfig.postInit {}
    tls := { email := str "admin@example.com" }
    forwarding_rules :=
      [ { source := str "alice@example.com", destination := str "bob@other.com" }
      , { source := str "*@example.org", destination := str "catchall@other.com",
          is_wildcard := true } ] }

/-- Claim C3: when DKIM is enabled with an empty domain set and
`validate` succeeds, the DKIM domain set afterwards is exactly the set
of present (non-empty) rule domains together with the parent domain of
the hostname (everything after its first dot, or the whole hostname
without a dot); on the worked example the derived set is
`{example.com, example.org}`. -/
theorem C3_dkim_autoderivation :
    (∀ c : Configuration, c.dkim.enabled = true → c.dkim.domains = ∅ →
      (c.validate).2 = none →
      ∀ d, d ∈ (c.validate).1.dkim.domains ↔
        (∃ r ∈ c.forwarding_rules, r.domain = some d ∧ d ≠ []) ∨
        d = hostnameDomain c.smtp.hostname) ∧
    (cC3.validate).1.dkim.domains =
      ({str "example.com", str "example.org"} : Finset (List Char)) := by
  constructor
  · intro c hen hemp hok d
    obtain ⟨h1, h2, -, -⟩ := (validate_none_iff c).mp hok
    rw [validate_fst c h1 h2, derived_dkim_domains, if_pos ⟨hemp, hen⟩,
      mem_allDomains]
    exact or_comm
  · decide

/-- Witness for C3: `example.com` (the hostname parent domain) is in the
derived set of the worked example. -/
theorem C3_witness : str "example.com" ∈ (cC3.validate).1.dkim.domains :=
  (C3_dkim_autoderivation.1 cC3 (by decide) (by decide) (by decide)
    (str "example.com")).mpr (Or.inr (by decide))

/-- Claim C9: postconditions of a successful `validate`: non-empty rule
list, non-empty hostname, a non-empty DKIM domain set when DKIM is
enabled, a non-empty TLS domain set and non-empty TLS email when TLS is
enabled, and a set SRS domain when SRS is enabled. -/
theorem C9_validate_postconditions (c : Configuration)
    (hok : (c.validate).2 = none) :
    (c.validate).1.forwarding_rules ≠ [] ∧
    (c.validate).1.smtp.hostname ≠ [] ∧
    ((c.validate).1.dkim.enabled = true → (c.validate).1.dkim.domains ≠ ∅) ∧
    ((c.validate).1.tls.enabled = true →
      (c.validate).1.tls.domains ≠ ∅ ∧ (c.validate).1.tls.email ≠ []) ∧
    ((c.validate).1.srs.enabled = true → (c.validate).1.srs.domain ≠ none) := by
  obtain ⟨h1, h2, h3, -⟩ := (validate_none_iff c).mp hok
  have hfst := validate_fst c h1 h2
  rw [hfst]
  refine ⟨?_, ?_, ?_, ?_, ?_⟩
  · rw [derived_rules]; exact h2
  · rw [derived_smtp]; exact h1
  · rw [derived_dkim_enabled]
    exact derived_dkim_domains_nonempty c
  · rw [derived_tls_enabled]
    intro hen
    refine ⟨derived_tls_domains_nonempty c hen, ?_⟩
    rw [derived_tls_email]
    intro hmail
    exact h3 ⟨by rw [derived_tls_enabled]; exact hen,
      by rw [derived_tls_email]; exact hmail⟩
  · rw [derived_srs_enabled]
    intro hen
    have htr := derived_srs_domain_truthy c h1 hen
    intro hnone
    rw [hnone] at htr
    exact absurd htr (by decide)

/-- A fully valid configuration for the C9 witness. -/
def cC9 : Configuration :=
  { smtp := SMTPConfig.postInit {}
    tls := { email := str "admin@example.com" }
    forwarding_rules :=
      [{ source := str "alice@example.com", destination := str "bob@other.com" }] }

/-- Witness for C9 at a concrete configuration. -/
theorem C9_witness :
    (cC9.validate).1.forwarding_rules ≠ [] ∧
    (cC9.validate).1.smtp.hostname ≠ [] ∧
    ((cC9.validate).1.dkim.enabled = true → (cC9.validate).1.dkim.domains ≠ ∅) ∧
    ((cC9.validate).1.tls.enabled = true →
      (cC9.validate).1.tls.domains ≠ ∅ ∧ (cC9.validate).1.tls.email ≠ []) ∧
    ((cC9.validate).1.srs.enabled = true → (cC9.validate).1.srs.domain ≠ none) :=
  C9_validate_postconditions cC9 (by decide)

/-- Claim C7: `validate` is idempotent on the derived fields — after a
successful `validate`, a second call leaves the DKIM domain set, the TLS
domain set and the SRS domain unchanged (they are only populated when
empty/unset). -/
theorem C7_validate_idempotent (c : Configuration)
    (hok : (c.validate).2 = none) :
    ((c.validate).1.validate).1.dkim.domains = (c.validate).1.dkim.domains ∧
    ((c.validate).1.validate).1.tls.domains = (c.validate).1.tls.domains ∧
    ((c.validate).1.validate).1.srs.domain = (c.validate).1.srs.domain := by
  obtain ⟨h1, h2, -, -⟩ := (validate_none_iff c).mp hok
  have hfst := validate_fst c h1 h2
  have h1' : (c.validate).1.smtp.hostname ≠ [] := by
    rw [hfst, derived_smtp]; exact h1
  have h2' : (c.validate).1.forwarding_rules ≠ [] := by
    rw [hfst, derived_rules]; exact h2
  rw [validate_fst (c.validate).1 h1' h2']
  refine ⟨?_, ?_, ?_⟩
  · rw [derived_dkim_domains]
    by_cases hen : (c.validate).1.dkim.enabled = true
    · have hne : (c.validate).1.dkim.domains ≠ ∅ := by
        rw [hfst]
        exact derived_dkim_domains_nonempty c
          (by rw [hfst, derived_dkim_enabled] at hen; exact hen)
      rw [if_neg (fun h => hne h.1)]
    · rw [if_neg (fun h => hen h.2)]
  · rw [derived_tls_domains]
    by_cases hen : (c.validate).1.tls.enabled = true
    · have hne : (c.validate).1.tls.domains ≠ ∅ := by
        rw [hfst]
        exact derived_tls_domains_nonempty c
          (by rw [hfst, derived_tls_enabled] at hen; exact hen)
      rw [if_neg (fun h => hne h.1)]
    · rw [if_neg (fun h => hen h.2)]
  · rw [derived_srs_domain]
    by_cases hen : (c.validate).1.srs.enabled = true
    · have htr : optTruthy (c.validate).1.srs.domain = true := by
        rw [hfst]
        exact derived_srs_domain_truthy c h1
          (by rw [hfst, derived_srs_enabled] at hen; exact hen)
      rw [if_neg (fun h => by rw [htr] at h; exact absurd h.2 (by decide))]
    · rw [if_neg (fun h => hen h.1)]

/-- A fully valid configuration for the C7 witness. -/
def cC7 : Configuration :=
  { smtp := SMTPConfig.postInit {}
    tls := { email := str "admin@example.com" }
    forwarding_rules :=
      [ { source := str "alice@example.com", destination := str "bob@other.com" }
      , { source := str "*@example.org", destination := str "catchall@other.com",
          is_wildcard := true } ] }

/-- Witness for C7 at a concrete configuration. -/
theorem C7_witness :
    ((cC7.validate).1.validate).1.dkim.domains = (cC7.validate).1.dkim.domains ∧
    ((cC7.validate).1.validate).1.tls.domains = (cC7.validate).1.tls.domains ∧
    ((cC7.validate).1.validate).1.srs.domain = (cC7.validate).1.srs.domain :=
  C7_validate_idempotent cC7 (by decide)

/-- Claim C10: only the single-variable syntax is implemented —
`parse_forwarding_rules` returns `[]` whenever `FORWARD_RULES` is
absent, and its result depends only on the value of `FORWARD_RULES`, so
no other `FORWARD_`-prefixed variable ever contributes a rule. -/
theorem C10_single_variable_only :
    (∀ env : Env, envLookup env (str "FORWARD_RULES") = none →
      parse_forwarding_rules env = []) ∧
    (∀ env env' : Env,
      envLookup env (str "FORWARD_RULES") = envLookup env' (str "FORWARD_RULES") →
      parse_forwarding_rules env = parse_forwarding_rules env') := by
  constructor
  · intro env h
    unfold parse_forwarding_rules
    rw [h]
  · intro env env' h
    unfold parse_forwarding_rules
    rw [h]

/-- An environment with `FORWARD_`-prefixed variables but without
`FORWARD_RULES`. -/
def envC10 : Env :=
  [ (str "FORWARD_alice__example.com", str "bob@other.com")
  , (str "FORWARD_RULE", str "x@y.zz:a@b.cc") ]

/-- Witness for C10: the per-variable form contributes nothing. -/
theorem C10_witness : parse_forwarding_rules envC10 = [] :=
  C10_single_variable_only.1 envC10 (by decide)

/-- Claim C5: constructing a non-wildcard `ForwardingRule` succeeds for
every source of the form `user@domain.tld` (non-empty local part,
non-empty domain parts around a dot, no whitespace or extra `@`) and
fails for every source lacking an `@` or a `.`; the wildcard
construction succeeds for `*@domain.tld` and `*.sub@domain.tld` and
fails for a plain `*`; and construction returns a rule exactly when the
regex checks pass (a valid destination assumed where the claim is about
the source) — where, per Python's `$`, the anchored regexes also accept
the grammar shape followed by one final newline — so no `ForwardingRule`
is ever built in invalid form. -/
theorem C5_forwarding_rule_grammar :
    (∀ u p q dest : List Char, u ≠ [] → p ≠ [] → q ≠ [] →
      u.all okChar = true → p.all okChar = true → q.all okChar = true →
      matchEmail dest = true →
      (mkForwardingRule (u ++ '@' :: (p ++ '.' :: q)) dest false).isSome = true) ∧
    (∀ s dest : List Char, ∀ w : Bool, ('@' ∉ s ∨ '.' ∉ s) →
      mkForwardingRule s dest w = none) ∧
    (∀ p q dest : List Char, p ≠ [] → q ≠ [] →
      p.all okChar = true → q.all okChar = true → matchEmail dest = true →
      (mkForwardingRule ('*' :: '@' :: (p ++ '.' :: q)) dest true).isSome = true) ∧
    (∀ w p q dest : List Char, w ≠ [] → w.all okChar = true →
      p ≠ [] → q ≠ [] → p.all okChar = true → q.all okChar = true →
      matchEmail dest = true →
      (mkForwardingRule ('*' :: '.' :: (w ++ '@' :: (p ++ '.' :: q)))
        dest true).isSome = true) ∧
    (∀ dest : List Char, ∀ w : Bool, mkForwardingRule ['*'] dest w = none) ∧
    (∀ s dest : List Char, ∀ w : Bool,
      (mkForwardingRule s dest w).isSome = true ↔
        ((if w = true then WildAccept s else EmailAccept s) ∧ EmailAccept dest)) := by
  have main : ∀ s dest : List Char, ∀ w : Bool,
      (mkForwardingRule s dest w).isSome = true ↔
        ((if w = true then WildAccept s else EmailAccept s) ∧ EmailAccept dest) := by
    intro s dest w
    rw [mkForwardingRule_isSome]
    cases w
    · simp only [Bool.false_eq_true, if_false, matchEmail_iff]
    · simp only [if_true, matchEmail_iff, matchWildcardSource_iff]
  have none_of : ∀ s dest : List Char, ∀ w : Bool,
      ¬(if w = true then WildAccept s else EmailAccept s) →
      mkForwardingRule s dest w = none := by
    intro s dest w h
    rcases hmk : mkForwardingRule s dest w with - | r
    · rfl
    · have hsome : (mkForwardingRule s dest w).isSome = true := by rw [hmk]; rfl
      exact absurd ((main s dest w).mp hsome).1 h
  have fail_mem : ∀ s dest : List Char, ∀ w : Bool, ('@' ∉ s ∨ '.' ∉ s) →
      mkForwardingRule s dest w = none := by
    intro s dest w hmem
    refine none_of s dest w ?_
    intro hshape
    cases w
    · have := EmailAccept_mem hshape
      rcases hmem with hm | hm <;> [exact hm this.1; exact hm this.2]
    · have := WildAccept_mem hshape
      rcases hmem with hm | hm <;> [exact hm this.1; exact hm this.2]
  refine ⟨?_, fail_mem, ?_, ?_, ?_, main⟩
  · intro u p q dest hu hp hq hau hap haq hdest
    exact (main _ dest false).mpr
      ⟨Or.inl ⟨u, p, q, rfl, hu, hp, hq, hau, hap, haq⟩,
        (matchEmail_iff dest).mp hdest⟩
  · intro p q dest hp hq hap haq hdest
    exact (main _ dest true).mpr
      ⟨Or.inl (Or.inl ⟨p, q, rfl, hp, hq, hap, haq⟩),
        (matchEmail_iff dest).mp hdest⟩
  · intro w p q dest hw haw hp hq hap haq hdest
    exact (main _ dest true).mpr
      ⟨Or.inl (Or.inr ⟨w, p, q, rfl, hw, haw, hp, hq, hap, haq⟩),
        (matchEmail_iff dest).mp hdest⟩
  · intro dest w
    exact fail_mem ['*'] dest w (Or.inl (by decide))

/-- Witness for C5: a concrete successful construction, a concrete
failing construction, and a construction accepted only through `$`
matching before a final newline. -/
theorem C5_witness :
    (mkForwardingRule (str "alice" ++ '@' :: (str "example" ++ '.' :: str "com"))
      (str "bob@other.com") false).isSome = true ∧
    mkForwardingRule (str "aliceexample.com") (str "bob@other.com") false = none ∧
    (mkForwardingRule (str "a@b.cc" ++ ['\n']) (str "x@y.zz") false).isSome = true :=
  ⟨C5_forwarding_rule_grammar.1 (str "alice") (str "example") (str "com")
      (str "bob@other.com") (by decide) (by decide) (by decide) (by decide)
      (by decide) (by decide) (by decide),
    C5_forwarding_rule_grammar.2.1 (str "aliceexample.com") (str "bob@other.com")
      false (Or.inl (by decide)),
    (C5_forwarding_rule_grammar.2.2.2.2.2 (str "a@b.cc" ++ ['\n']) (str "x@y.zz")
        false).mpr
      ⟨Or.inr ⟨str "a@b.cc", rfl,
          str "a", str "b", str "cc", by decide, by decide, by decide, by decide,
          by decide, by decide, by decide⟩,
        Or.inl ⟨str "x", str "y", str "zz", by decide, by decide, by decide,
          by decide, by decide, by decide, by decide⟩⟩⟩

/-- Claim C4 (amended): for each of the string-set variables
(`DKIM_DOMAINS`, `TLS_DOMAINS`, `SRS_EXCLUDE_DOMAINS`, all parsed by
`parseDomainSet`), an absent or empty variable yields the empty set, and
a non-empty value is split on `,` with each element stripped of
surrounding whitespace — but empty elements are NOT dropped, so the
parsed set contains exactly the stripped elements, including the empty
string when an element is empty or all-whitespace.  (The original claim
said empty elements are dropped and no parsed set ever contains the
empty string.) -/
theorem C4_domain_set_parsing :
    (∀ env : Env, ∀ key : List Char, envLookup env key = none →
      parseDomainSet env key = ∅) ∧
    (∀ env : Env, ∀ key : List Char, envLookup env key = some [] →
      parseDomainSet env key = ∅) ∧
    (∀ env : Env, ∀ key v d : List Char, envLookup env key = some v → v ≠ [] →
      (d ∈ parseDomainSet env key ↔ ∃ piece ∈ v.splitOn ',', strip piece = d)) := by
  refine ⟨?_, ?_, ?_⟩
  · intro env key h
    unfold parseDomainSet envGetD
    rw [h]
    rfl
  · intro env key h
    unfold parseDomainSet envGetD
    rw [h]
    rfl
  · intro env key v d h hv
    unfold parseDomainSet envGetD
    rw [h]
    show d ∈ (if v ≠ [] then ((v.splitOn ',').map strip).toFinset else ∅) ↔ _
    rw [if_pos hv, List.mem_toFinset, List.mem_map]

/-- An environment whose `DKIM_DOMAINS` is the single comma `","`, with
the rest valid. -/
def envC4 : Env :=
  [ (str "SMTP_HOSTNAME", str "mail.example.com")
  , (str "ACME_EMAIL", str "admin@example.com")
  , (str "FORWARD_RULES", str "alice@example.com:bob@other.com")
  , (str "DKIM_DOMAINS", str ",") ]

/-- Claim C4 counterexample: with `DKIM_DOMAINS=","`, `from_environment`
succeeds and the parsed DKIM domain set contains the empty string —
refuting "no parsed domain set ever contains the empty string". -/
theorem C4_counterexample :
    isOkE (from_environment envC4) = true ∧
    [] ∈ (okConfig (from_environment envC4)).dkim.domains := by decide

/-- An environment with a two-element domain list. -/
def envC4w : Env := [(str "DKIM_DOMAINS", str "a.com, b.org")]

/-- Witness for C4: the stripped element `b.org` is parsed. -/
theorem C4_witness : str "b.org" ∈ parseDomainSet envC4w (str "DKIM_DOMAINS") :=
  (C4_domain_set_parsing.2.2 envC4w (str "DKIM_DOMAINS") (str "a.com, b.org")
    (str "b.org") (by decide) (by decide)).mpr ⟨str " b.org", by decide, by decide⟩

/-- An environment supplying an SMTP user via `SMTP_USERS`, with the
rest valid. -/
def envC1 : Env :=
  [ (str "SMTP_HOSTNAME", str "mail.example.com")
  , (str "ACME_EMAIL", str "admin@example.com")
  , (str "FORWARD_RULES", str "alice@example.com:bob@other.com")
  , (str "SMTP_USERS", str "alice:secret") ]

/-- Claim C1: `from_environment` parses `SMTP_USERS` into the expected
credential map, but the returned configuration's `smtp_auth_enabled`
flag is `false` even though the map is non-empty:
`SMTPConfig.__post_init__` (which turns the flag on) runs when
`Configuration()` is constructed with an empty user map, and the later
in-place insertion of the parsed users never re-runs it. -/
theorem C1_smtp_auth_flag_bug :
    isOkE (from_environment envC1) = true ∧
    (okConfig (from_environment envC1)).smtp.smtp_users =
      [(str "alice", str "secret")] ∧
    (okConfig (from_environment envC1)).smtp.smtp_auth_enabled = false := by
  decide
